import Mathlib

/-!
Verification of the URL risk scanner, typosquat detector, provider-selection
logic and analysis fallback of the `chokwadi-ai` repository.

The Python sources (`src/core/link_scanner.py`, `src/core/analyzer.py`,
`src/config.py`) are embedded shallowly below: strings are Lean `String`s
(lists of unicode characters), Python exceptions become `Except`, and the
external AI providers become function parameters returning `Option String`
(a call that raises is normalised to `none` by `_call_provider`, exactly as
in the source).  ASCII-only approximations are used for `str.lower` and the
regex class `\d` (`Char.toLower`, `Char.isDigit`), matching the source's
behaviour on all ASCII inputs.
-/

namespace Chokwadi

/-- Risk levels of `link_scanner.py`: the `levels` dict of `_escalate_risk`. -/
inductive RiskLevel : Type
| low
| medium
| high
| critical
deriving DecidableEq, Fintype

/-- Ordinal value of a risk level (the `levels` dict in `_escalate_risk`). -/
def RiskLevel.toNat : RiskLevel → Nat
| .low => 0
| .medium => 1
| .high => 2
| .critical => 3

/-- `_escalate_risk`: replace the current level by the proposed one only if the
proposed one is strictly larger (risk only goes up, never down). -/
def escalate_risk (cur new_ : RiskLevel) : RiskLevel :=
if cur.toNat < new_.toNat then new_ else cur

/-- Spec-side notion: the ordinal maximum of two risk levels. -/
def maxLevel (a b : RiskLevel) : RiskLevel :=
if a.toNat ≤ b.toNat then b else a

/-! ### The classic Levenshtein edit distance (specification side)

`lev` is the textbook recursion: deleting, inserting or substituting a single
character, with unit costs.  It is the reference against which the dynamic
programming loop of `_levenshtein_distance` is verified. -/

/-- Substitution cost: `0` for equal characters, `1` otherwise
(Python's `(c1 != c2)` coerced to an integer). -/
def cost (a b : Char) : Nat := if a = b then 0 else 1

/-- Classic single-character insertion/deletion/substitution edit distance. -/
def lev : List Char → List Char → Nat
| [], ys => ys.length
| x :: xs, [] => (x :: xs).length
| x :: xs, y :: ys =>
    min (lev xs (y :: ys) + 1) (min (lev (x :: xs) ys + 1) (lev xs ys + cost x y))
termination_by xs ys => (xs.length, ys.length)

/-! ### The dynamic program of `_levenshtein_distance` -/

/-- Inner loop of `_levenshtein_distance`: one pass over `s2` producing the
tail of `curr_row`.  `p0 :: p1 :: ps` is the not-yet-consumed part of
`prev_row` (`p0 = prev_row[j]`, `p1 = prev_row[j+1]`) and `left` is the last
element appended to `curr_row` (`curr_row[j]`). -/
def rowStep (c1 : Char) : List Char → List Nat → Nat → List Nat
| c2 :: cs, p0 :: p1 :: ps, left =>
    min (p1 + 1) (min (left + 1) (p0 + cost c1 c2)) ::
      rowStep c1 cs (p1 :: ps) (min (p1 + 1) (min (left + 1) (p0 + cost c1 c2)))
| _, _, _ => []

/-- Outer loop of `_levenshtein_distance`: fold the rows over the characters
of `s1`; `i` is the number of characters of `s1` already consumed. -/
def levLoop (s2 : List Char) : List Char → List Nat → Nat → List Nat
| [], prevRow, _ => prevRow
| c1 :: cs, prevRow, i =>
    levLoop s2 cs ((i + 1) :: rowStep c1 s2 prevRow (i + 1)) (i + 1)

/-- Body of `_levenshtein_distance` after the length swap: `prev_row`
initialised to `range(len(s2)+1)`, then the row loop, then `prev_row[-1]`. -/
def levDP (s1 s2 : List Char) : Nat :=
if s2.length = 0 then s1.length
else (levLoop s2 s1 (List.range (s2.length + 1)) 0).getLastD 0

/-- `_levenshtein_distance` from `link_scanner.py`: swap the arguments when
`len(s1) < len(s2)`, then run the dynamic program. -/
def levenshtein_distance (s1 s2 : String) : Nat :=
if s1.length < s2.length then levDP s2.data s1.data else levDP s1.data s2.data

/-- `rowTail u pre v`: the distances `lev u r` for `r` ranging over the
reversed extensions of `pre` by successive characters of `v` (the tail of a
DP row, in the reversed-prefix view). -/
def rowTail (u : List Char) : List Char → List Char → List Nat
| _, [] => []
| pre, c :: cs => lev u (c :: pre) :: rowTail u (c :: pre) cs

/-- A full DP row in the reversed-prefix view. -/
def rowOf (u pre v : List Char) : List Nat :=
lev u pre :: rowTail u pre v

/-! ### String primitives (ASCII fragment of the Python built-ins) -/

/-- Python `str.lower` (ASCII fragment). -/
def lowerStr (s : String) : String := ⟨s.data.map Char.toLower⟩

/-- Does `needle` occur as a contiguous subsequence? -/
def containsSeq (needle : List Char) : List Char → Bool
| [] => needle.isEmpty
| c :: cs => needle.isPrefixOf (c :: cs) || containsSeq needle cs

/-- Python `needle in hay` on strings: substring containment. -/
def strContains (hay needle : String) : Bool := containsSeq needle.data hay.data

/-- Python `s.endswith(suf)`. -/
def strEndsWith (s suf : String) : Bool := suf.data.isSuffixOf s.data

/-! ### `urllib.parse.urlparse` (the fragment used by `scan_url`)

Scheme detection, `//`-netloc splitting with the `Invalid IPv6 URL`
`ValueError` on unbalanced brackets, and fragment/query stripping, after
removing the unsafe bytes tab/CR/LF — per CPython's `urlsplit`. -/

structure ParsedUrl where
  scheme : String
  netloc : String
  path : String
deriving DecidableEq

def schemeChars : List Char :=
  "abcdefghijklmnopqrstuvwxyzABCDEFGHIJKLMNOPQRSTUVWXYZ0123456789+-.".data

def urlparse (url : String) : Except String ParsedUrl :=
  let u0 := url.data.filter (fun c => !(c == '\t' || c == '\r' || c == '\n'))
  let sr : List Char × List Char :=
    match u0.findIdx? (fun c => c == ':') with
    | some i =>
        if 0 < i && (match u0.head? with | some c => c.isAlpha | none => false)
            && (u0.take i).all (fun c => schemeChars.contains c) then
          ((u0.take i).map Char.toLower, u0.drop (i + 1))
        else ([], u0)
    | none => ([], u0)
  match sr.2 with
  | '/' :: '/' :: r =>
      let netloc := r.takeWhile (fun c => !(c == '/' || c == '?' || c == '#'))
      let after := r.dropWhile (fun c => !(c == '/' || c == '?' || c == '#'))
      if (netloc.contains '[' && !netloc.contains ']')
          || (netloc.contains ']' && !netloc.contains '[') then
        .error "Invalid IPv6 URL"
      else
        .ok ⟨⟨sr.1⟩, ⟨netloc⟩, ⟨(after.takeWhile (fun c => c != '#')).takeWhile (fun c => c != '?')⟩⟩
  | rest =>
      .ok ⟨⟨sr.1⟩, "", ⟨(rest.takeWhile (fun c => c != '#')).takeWhile (fun c => c != '?')⟩⟩

/-! ### The domain registry of `link_scanner.py` -/

def LEGITIMATE_ZW_DOMAINS : List String :=
  ["ecocash.co.zw", "innbucks.co.zw", "rbz.co.zw", "zimra.co.zw",
   "zse.co.zw", "herald.co.zw", "chronicle.co.zw", "newsday.co.zw",
   "techzim.co.zw", "zbc.co.zw", "parlzim.gov.zw", "zimgov.gov.zw",
   "mhte.gov.zw", "mohcc.gov.zw", "potraz.gov.zw", "zec.org.zw",
   "uz.ac.zw", "nust.ac.zw", "hit.ac.zw", "msu.ac.zw",
   "steward.co.zw", "cbz.co.zw", "stanbicbank.co.zw", "zetdc.co.zw",
   "econet.co.zw", "netone.co.zw", "telecel.co.zw"]

def SUSPICIOUS_TLDS : List String :=
  [".xyz", ".top", ".club", ".work", ".click", ".link",
   ".buzz", ".gq", ".ml", ".cf", ".tk", ".ga"]

def sus_paths : List String :=
  ["login", "signin", "verify", "update", "secure", "account", "confirm"]

def shorteners : List String :=
  ["bit.ly", "tinyurl.com", "t.co", "goo.gl", "is.gd", "rb.gy", "shorturl.at"]

def typosquat_targets : List (String × String) :=
  [("ecocash", "ecocash.co.zw"), ("innbucks", "innbucks.co.zw"),
   ("econet", "econet.co.zw"), ("cbz", "cbz.co.zw"),
   ("steward", "steward.co.zw"), ("zimra", "zimra.co.zw"), ("rbz", "rbz.co.zw")]

/-! ### The regex fragment used by `SCAM_PATTERNS` and the IP check

The scanner's patterns use only literals, `.`(any char except newline),
`*`, `?`, the class `[-_]` and `\d{1,3}`.  Boolean matching of this
fragment is embedded directly; its disjunctive semantics coincides with
the backtracking search of `re`. -/

inductive RAtom : Type
| lit (c : Char)
| dot
| cls (cs : List Char)
deriving DecidableEq

inductive Quant : Type
| one
| star
| opt
deriving DecidableEq

def atomMatch : RAtom → Char → Bool
| .lit a, c => a == c
| .dot, c => c != '\n'
| .cls cs, c => cs.contains c

/-- Zero or more repetitions of atom `a`, then the continuation `k`. -/
def starMatch (a : RAtom) (k : List Char → Bool) : List Char → Bool
| [] => k []
| c :: cs => k (c :: cs) || (atomMatch a c && starMatch a k cs)

/-- Does the pattern match some prefix of the character list? -/
def matchPat : List (RAtom × Quant) → List Char → Bool
| [], _ => true
| (a, .one) :: ps, s =>
    match s with
    | [] => false
    | c :: cs => atomMatch a c && matchPat ps cs
| (a, .opt) :: ps, s =>
    matchPat ps s ||
      (match s with
       | [] => false
       | c :: cs => atomMatch a c && matchPat ps cs)
| (a, .star) :: ps, s => starMatch a (matchPat ps) s

/-- Python `re.search`: does the pattern match starting at some position? -/
def reSearch (p : List (RAtom × Quant)) : List Char → Bool
| [] => matchPat p []
| c :: cs => matchPat p (c :: cs) || reSearch p cs

def lits (s : String) : List (RAtom × Quant) :=
  s.data.map (fun c => (RAtom.lit c, Quant.one))

def dotStar : RAtom × Quant := (RAtom.dot, Quant.star)

def SCAM_PATTERNS : List (List (RAtom × Quant)) :=
  [lits "ecocash" ++ [dotStar] ++ lits "free",
   lits "innbucks" ++ [dotStar] ++ lits "bonus",
   lits "zim" ++ [dotStar] ++ lits "lottery",
   lits "dv" ++ [(RAtom.cls ['-', '_'], Quant.opt)] ++ lits "lottery" ++ [dotStar] ++ lits "apply",
   lits "rbz" ++ [dotStar] ++ lits "zig" ++ [dotStar] ++ lits "exchange",
   lits "free" ++ [(RAtom.cls ['-', '_'], Quant.opt)] ++ lits "airtime",
   lits "zimra" ++ [dotStar] ++ lits "refund",
   lits "zesa" ++ [dotStar] ++ lits "free" ++ [dotStar] ++ lits "token" ++ [(RAtom.lit 's', Quant.opt)],
   lits "diaspora" ++ [dotStar] ++ lits "send" ++ [dotStar] ++ lits "money",
   lits "forex" ++ [dotStar] ++ lits "guaranteed" ++ [dotStar] ++ lits "profit",
   lits "crypto" ++ [dotStar] ++ lits "invest" ++ [dotStar] ++ lits "zim",
   lits "whatsapp" ++ [dotStar] ++ lits "gold"]

/-- Consume exactly `n` decimal digits, or fail. -/
def takeDigitsN : Nat → List Char → Option (List Char)
| 0, s => some s
| _ + 1, [] => none
| n + 1, c :: cs => if c.isDigit then takeDigitsN n cs else none

/-- Consume a literal dot then exactly `k` digits. -/
def dotDigits (s : List Char) (k : Nat) : Option (List Char) :=
  match s with
  | '.' :: rest => takeDigitsN k rest
  | _ => none

/-- `re.match(r'\d{1,3}\.\d{1,3}\.\d{1,3}\.\d{1,3}', s)`: some prefix of `s`
decomposes into four 1-to-3-digit groups separated by dots. -/
def ipPrefixMatch (s : List Char) : Bool :=
  [1, 2, 3].any (fun k1 =>
    match takeDigitsN k1 s with
    | none => false
    | some r1 => [1, 2, 3].any (fun k2 =>
        match dotDigits r1 k2 with
        | none => false
        | some r2 => [1, 2, 3].any (fun k3 =>
            match dotDigits r2 k3 with
            | none => false
            | some r3 => [1, 2, 3].any (fun k4 => (dotDigits r3 k4).isSome))))

/-! ### `_check_typosquatting` -/

/-- `domain.split('.')[0].lower()`. -/
def domainBase (domain : String) : String :=
  lowerStr ⟨domain.data.takeWhile (fun c => c != '.')⟩

/-- The per-target condition of the loop body of `_check_typosquatting`. -/
def typosquatHit (domain : String) (p : String × String) : Bool :=
  !(LEGITIMATE_ZW_DOMAINS.contains domain) &&
    ((strContains (domainBase domain) p.1 && domainBase domain != p.1) ||
      (decide (levenshtein_distance (domainBase domain) p.1 ≤ 2) && domainBase domain != p.1))

/-- `_check_typosquatting`: first matching target's canonical full domain. -/
def check_typosquatting (domain : String) : Option String :=
  (typosquat_targets.find? (typosquatHit domain)).map Prod.snd

/-! ### `scan_url` -/

structure Details where
  domain : String
  scheme : String
  is_known_zw_domain : Bool
deriving DecidableEq

/-- The `findings` dict: `details` is `none` while still the empty dict. -/
structure Finding where
  url : String
  risk_level : RiskLevel
  issues : List String
  details : Option Details
deriving DecidableEq

/-- The context shared by the nine checks, as computed at the top of the
`try` block: `parsed.scheme`, `parsed.netloc.lower()`, `parsed.path.lower()`
and `url.lower()`. -/
structure Ctx where
  url : String
  scheme : String
  domain : String
  path : String
  fullUrlLower : String

abbrev Check := Ctx → Option (String × RiskLevel)

def insecureMsg : String := "No HTTPS encryption - data sent insecurely"

def tldMsg (tld : String) : String :=
  "Suspicious domain extension (" ++ tld ++ ") commonly used in scams"

def typosquatMsg (t : String) : String :=
  "Possible impersonation of \x27" ++ t ++ "\x27 - domain looks similar but isn\x27t the real site"

def scamMsg : String := "URL matches known Zimbabwean scam/fraud patterns"

def longMsg : String := "Unusually long URL - may be disguising destination"

def susPathMsg (sus : String) : String :=
  "Contains \x27" ++ sus ++ "\x27 in path on non-official domain - possible phishing"

def ipMsg : String := "Uses IP address instead of domain name - highly suspicious"

def subdomainsMsg : String := "Excessive subdomains - may be impersonating a legitimate site"

def shortenerMsg : String := "Uses URL shortener - destination is hidden"

def noRedFlagsMsg : String := "No obvious red flags detected - but always verify independently"

def parseErrMsg (e : String) : String := "Could not fully analyse URL: " ++ e

/-- Check 1: missing HTTPS. -/
def checkHttps : Check := fun ctx =>
  if ctx.scheme = "http" then some (insecureMsg, .medium) else none

/-- Check 2: suspicious TLD (first match, then `break`). -/
def checkTld : Check := fun ctx =>
  (SUSPICIOUS_TLDS.find? (fun tld => strEndsWith ctx.domain tld)).map
    (fun tld => (tldMsg tld, .high))

/-- Check 3: typosquatting. -/
def checkTyposquat : Check := fun ctx =>
  (check_typosquatting ctx.domain).map (fun t => (typosquatMsg t, .critical))

/-- Check 4: known scam patterns (single issue, `break` after first). -/
def checkScam : Check := fun ctx =>
  if SCAM_PATTERNS.any (fun p => reSearch p ctx.fullUrlLower.data) then
    some (scamMsg, .high)
  else none

/-- Check 5: URL length. -/
def checkLength : Check := fun ctx =>
  if 200 < ctx.url.length then some (longMsg, .medium) else none

/-- Check 6: suspicious path element on a non-official domain. -/
def checkSusPath : Check := fun ctx =>
  (sus_paths.find? (fun sus =>
      strContains ctx.path sus && !(LEGITIMATE_ZW_DOMAINS.contains ctx.domain))).map
    (fun sus => (susPathMsg sus, .high))

/-- Check 7: IP address instead of domain. -/
def checkIp : Check := fun ctx =>
  if ipPrefixMatch ctx.domain.data then some (ipMsg, .critical) else none

/-- Check 8: excessive subdomains. -/
def checkSubdomains : Check := fun ctx =>
  if 3 < ctx.domain.data.count '.' then some (subdomainsMsg, .medium) else none

/-- Check 9: URL shortener. -/
def checkShortener : Check := fun ctx =>
  if shorteners.any (fun s => strContains ctx.domain s) then
    some (shortenerMsg, .medium)
  else none

/-- The nine checks, in source order. -/
def theChecks : List Check :=
  [checkHttps, checkTld, checkTyposquat, checkScam, checkLength, checkSusPath,
   checkIp, checkSubdomains, checkShortener]

/-- Apply one check: append its issue and escalate, or leave untouched. -/
def applyCheck (ctx : Ctx) (f : Finding) (c : Check) : Finding :=
  match c ctx with
  | some ml =>
      { f with issues := f.issues ++ [ml.1], risk_level := escalate_risk f.risk_level ml.2 }
  | none => f

def runChecks (cs : List Check) (ctx : Ctx) (f : Finding) : Finding :=
  cs.foldl (applyCheck ctx) f

def mkCtx (url : String) (p : ParsedUrl) : Ctx :=
  ⟨url, p.scheme, lowerStr p.netloc, lowerStr p.path, lowerStr url⟩

/-- `scan_url` from `link_scanner.py`. -/
def scan_url (url : String) : Finding :=
  let f0 : Finding := ⟨url, .low, [], none⟩
  match urlparse url with
  | .error e =>
      { f0 with issues := f0.issues ++ [parseErrMsg e],
                risk_level := escalate_risk f0.risk_level .medium }
  | .ok p =>
      let ctx := mkCtx url p
      let f1 := runChecks theChecks ctx f0
      let f2 :=
        if f1.issues.isEmpty then { f1 with issues := f1.issues ++ [noRedFlagsMsg] } else f1
      { f2 with
          details := some ⟨ctx.domain, p.scheme, LEGITIMATE_ZW_DOMAINS.contains ctx.domain⟩ }

/-- Levels proposed by the checks that fired, in order. -/
def firedLevels (cs : List Check) (ctx : Ctx) : List RiskLevel :=
  cs.filterMap (fun c => (c ctx).map Prod.snd)

/-- Issues appended by the checks that fired, in order. -/
def firedIssues (cs : List Check) (ctx : Ctx) : List String :=
  cs.filterMap (fun c => (c ctx).map Prod.fst)

/-! ### `config.py`: provider selection -/

/-- The configuration snapshot read from environment variables: selection
mode and the two API keys (Python truthiness of a key = non-empty). -/
structure Config where
  AI_PROVIDER : String
  ANTHROPIC_API_KEY : String
  OPENAI_API_KEY : String
deriving DecidableEq

def noKeysMsg : String :=
  "No AI API keys configured! Set ANTHROPIC_API_KEY or OPENAI_API_KEY."

/-- `get_available_providers`. -/
def get_available_providers (cfg : Config) : List String :=
  (if cfg.ANTHROPIC_API_KEY ≠ "" then ["anthropic"] else []) ++
    (if cfg.OPENAI_API_KEY ≠ "" then ["openai"] else [])

/-- `get_active_provider`; the `RuntimeError` becomes `Except.error`. -/
def get_active_provider (cfg : Config) : Except String String :=
  let available := get_available_providers cfg
  if cfg.AI_PROVIDER = "auto" then
    if available.contains "anthropic" then .ok "anthropic"
    else if available.contains "openai" then .ok "openai"
    else .error noKeysMsg
  else if available.contains cfg.AI_PROVIDER then .ok cfg.AI_PROVIDER
  else
    match available with
    | p :: _ => .ok p
    | [] => .error noKeysMsg

/-- `get_fallback_provider`: returns `None` outside auto mode, otherwise the
first available provider different from the primary; note that it calls
`get_active_provider`, whose `RuntimeError` propagates. -/
def get_fallback_provider (cfg : Config) : Except String (Option String) :=
  if cfg.AI_PROVIDER ≠ "auto" then .ok none
  else
    match get_active_provider cfg with
    | .error e => .error e
    | .ok primary => .ok ((get_available_providers cfg).find? (fun q => q != primary))

/-! ### `analyzer.py`: `analyze_text`

The two backends are parameters `callClaude`/`callOpenai` whose `none`
result models `_call_provider` catching any exception of the underlying
API call and returning `None`. -/

/-- `CHOKWADI_SYSTEM_PROMPT` from `prompts/system_prompt.py`. -/
def CHOKWADI_SYSTEM_PROMPT : String :=
  "You are Chokwadi AI, a Zimbabwean misinformation detection assistant built to help youth verify suspicious content they encounter online. \"Chokwadi\" means \"truth\" in Shona.\n\n## YOUR ROLE\nYou analyse content submitted by users (text, transcribed voice notes, extracted image text, or URLs) and assess its credibility. You respond in the SAME LANGUAGE the user writes in (Shona, Ndebele, or English).\n\n## ANALYSIS FRAMEWORK\nFor every piece of content submitted, you MUST provide:\n\n1. **CREDIBILITY SCORE**: Rate 1-10 (1 = almost certainly false, 10 = verified/credible)\n   - Display as emoji: üî¥ (1-3 Likely False), üü° (4-6 Unverified/Suspicious), üü¢ (7-10 Likely Credible)\n\n2. **MANIPULATION TACTICS DETECTED**: Identify any of the following:\n   - Emotional manipulation (fear, urgency, outrage)\n   - False authority (fake government sources, fake logos)\n   - Fabricated statistics or data\n   - Out-of-context information\n   - Deepfake or AI-generated indicators\n   - Social engineering / phishing tactics\n   - Financial scam patterns (Ponzi, advance fee, fake investment)\n\n3. **ZIMBABWE CONTEXT CHECK**: Cross-reference against known local patterns:\n   - Is this a known recurring scam/hoax in Zimbabwe?\n   - Does it reference real Zimbabwean institutions correctly?\n   - Are the claimed government policies/announcements real?\n   - Do phone numbers, addresses, or organisations check out?\n\n4. **EXPLANATION**: Brief, clear explanation of WHY the content is rated as such.\n\n5. **RECOMMENDATION**: What the user should do (verify with official source, report, ignore, etc.)\n\n## ZIMBABWEAN KNOWLEDGE BASE\nYou have deep awareness of:\n\n### Common Scam Patterns in Zimbabwe\n- EcoCash/InnBucks fraud schemes (fake cashout offers, SIM swap scams)\n- Fake RBZ (Reserve Bank of Zimbabwe) circulars about ZiG currency\n- Ponzi/pyramid schemes targeting youth (fake forex trading, crypto scams)\n- Fake scholarship and visa offers (especially US DV lottery scams)\n- Fake job advertisements requiring upfront payments\n- Fake diaspora remittance platforms\n- Land baron scams and fake property deals\n- Fake ZIMRA tax refund messages\n- Fake ZESA prepaid token offers\n\n### Health Misinformation\n- HIV/AIDS cure claims and anti-ARV narratives\n- Vaccine misinformation (COVID-19 and routine childhood vaccines)\n- Fake traditional medicine claims for serious conditions\n- Sexual and reproductive health myths\n- Mental health stigma and misinformation\n- Fake Ministry of Health advisories\n\n### Political/Civic Misinformation\n- Fake election-related content\n- Fabricated government policy announcements\n- Manipulated quotes from political figures\n- Fake protest/demonstration calls\n- False constitutional amendment claims\n- Fake ZEC (Zimbabwe Electoral Commission) statements\n\n### Financial Misinformation\n- False ZiG/USD exchange rate information\n- Fake stock market tips\n- Fraudulent investment opportunities\n- Fake tender announcements\n- Fake government grant/empowerment fund schemes\n\n### Key Zimbabwean Institutions (for verification)\n- Government: Office of the President, Parliament of Zimbabwe\n- Finance: RBZ, ZIMRA, ZSE\n- Health: Ministry of Health and Child Care, MOHCC\n- Education: Ministry of Higher and Tertiary Education\n- Elections: ZEC\n- Communications: POTRAZ, BAZ\n- Law: Zimbabwe Republic Police (ZRP), NPA\n\n## RESPONSE FORMAT\nKeep responses concise and WhatsApp-friendly (no long paragraphs). Use emojis for readability.\n\nFormat:\n---\nüîç *CHOKWADI AI ANALYSIS*\n\n\x7büî¥/üü°/üü¢\x7d *Credibility Score: X/10*\n\n‚ö†Ô∏è *Tactics Detected:*\n‚Ä¢ [list tactics found]\n\nüìã *Analysis:*\n[Brief explanation]\n\n‚úÖ *Recommendation:*\n[What the user should do]\n\nüáøüáº _Chokwadi AI - Zvokwadi Zvinobatsira (The truth helps)_\n---\n\n## LANGUAGE RULES\n- If the user writes in Shona, respond in Shona\n- If the user writes in Ndebele, respond in Ndebele\n- If the user writes in English, respond in English\n- If mixed language (Shona-English code-switching is common), respond in the dominant language\n- Always keep the section headers in English for consistency, but explanations in the detected language\n\n## IMPORTANT PRINCIPLES\n- Be objective and non-partisan on political content\n- Never dismiss traditional/cultural beliefs disrespectfully\n- Acknowledge when you\x27re uncertain ‚Äî say \"unverified\" rather than \"false\" when evidence is limited\n- Encourage users to check official sources\n- Be youth-friendly in tone ‚Äî not preachy or condescending\n- Remember that misinformation causes real harm in Zimbabwe ‚Äî take every query seriously\n"

/-- `LINK_ANALYSIS_PROMPT` from `prompts/system_prompt.py`. -/
def LINK_ANALYSIS_PROMPT : String :=
  "You are analysing a URL/link that a Zimbabwean user has received and wants to verify.\n\nAnalyse the following URL and any page content provided. Check for:\n\n1. **Domain legitimacy**: Is this a real, established domain or a suspicious one?\n   - Look for typosquatting (e.g., ec0cash.co.zw instead of ecocash.co.zw)\n   - Check for suspicious TLDs\n   - Look for impersonation of Zimbabwean institutions\n\n2. **Phishing indicators**:\n   - Login forms on suspicious domains\n   - Requests for personal/financial information\n   - Urgency tactics\n   - Too-good-to-be-true offers\n\n3. **Scam patterns**:\n   - Advance fee fraud\n   - Fake e-commerce\n   - Investment scams\n   - Fake job postings requiring payment\n\n4. **SSL/Security indicators**:\n   - Is the site using HTTPS?\n   - Certificate details if available\n\nProvide your analysis in the standard Chokwadi AI format.\n"

/-- `VOICE_NOTE_CONTEXT` from `prompts/system_prompt.py`. -/
def VOICE_NOTE_CONTEXT : String :=
  "The following text was transcribed from a voice note sent by a Zimbabwean user. \nThe transcription was done by Whisper and MAY CONTAIN ERRORS, especially for Shona or Ndebele words.\nCommon transcription issues to watch for:\n- Shona/Ndebele words may be phonetically misspelled or rendered as similar-sounding English words\n- Names of Zimbabwean places, people, or institutions may be garbled\n- Code-switching between Shona and English is normal in Zimbabwe\n- If the transcription seems nonsensical, try to infer the likely Shona/Ndebele meaning from phonetic similarity\n\nIMPORTANT: Despite any transcription errors, focus on analysing the MEANING, CLAIMS, and INTENT \nof the voice note for credibility. Attempt to reconstruct the likely original message if \nthe transcription is imperfect, and note where you are uncertain.\n\nNote that voice notes are a primary vector for misinformation in Zimbabwe, \noften shared widely on WhatsApp without verification.\n\nTranscribed voice note:\n"

/-- `IMAGE_CONTEXT` from `prompts/system_prompt.py`. -/
def IMAGE_CONTEXT : String :=
  "The following text was extracted from an image/screenshot sent by a Zimbabwean user.\nThis could be a screenshot of a social media post, a forwarded graphic, a fake document, \nor any visual content. Analyse the claims and content for credibility.\nPay special attention to:\n- Fake government letterheads or logos\n- Manipulated screenshots of news articles\n- Fake social media posts attributed to public figures\n- Doctored images of official documents\n\nExtracted text from image:\n"

/-- `_error_response` from `analyzer.py`: the fixed bilingual apology. -/
def error_response : String :=
  "🔍 *CHOKWADI AI*\n\n⚠️ Pane dambudziko rekutarisa content iyi panguva ino. (We\x27re experiencing a temporary issue analysing this content.)\n\nEdza zvakare mushure menguva shoma. (Please try again shortly.)\n\n🇿🇼 _Chokwadi AI - Zvokwadi Zvinobatsira_"

/-- `_call_provider`: route to the chosen backend (failures already
normalised to `none`). -/
def call_provider (callClaude callOpenai : String → String → Option String)
    (provider system user_message : String) : Option String :=
  if provider = "anthropic" then callClaude system user_message
  else callOpenai system user_message

/-- The provider-resolution and one-level-fallback logic of `analyze_text`,
abstracted over the already-built prompt strings. -/
def analyze_core (callClaude callOpenai : String → String → Option String)
    (cfg : Config) (system user_message : String) : Except String String :=
  match get_active_provider cfg with
  | .error e => .error e
  | .ok primary =>
      match get_fallback_provider cfg with
      | .error e => .error e
      | .ok fallback =>
          match call_provider callClaude callOpenai primary system user_message with
          | some result => .ok result
          | none =>
              match fallback with
              | some fb =>
                  match call_provider callClaude callOpenai fb system user_message with
                  | some result => .ok result
                  | none => .ok error_response
              | none => .ok error_response

/-- `analyze_text` from `analyzer.py`. -/
def analyze_text (callClaude callOpenai : String → String → Option String)
    (cfg : Config) (content : String) (content_type : String) : Except String String :=
  let user_message :=
    if content_type = "voice" then VOICE_NOTE_CONTEXT ++ content
    else if content_type = "image" then IMAGE_CONTEXT ++ content
    else if content_type = "link" then
      "Please analyse this URL/link for safety and credibility:\n\n" ++ content
    else
      "Please analyse the following content for credibility and misinformation:\n\n" ++ content
  let system :=
    CHOKWADI_SYSTEM_PROMPT ++
      (if content_type = "link" then "\n\n" ++ LINK_ANALYSIS_PROMPT else "")
  analyze_core callClaude callOpenai cfg system user_message

/-! ### Specification-side notion for the raw-IP claim -/

/-- Split a character list at every dot, keeping empty components
(the semantics of Python's `s.split('.')`). -/
def splitDots : List Char → List (List Char)
| [] => [[]]
| c :: cs =>
    if c = '.' then [] :: splitDots cs
    else
      match splitDots cs with
      | [] => [[c]]
      | g :: gs => (c :: g) :: gs

/-- Modelled from the spec: "domain is a dotted-quad IPv4 literal instead of
a name" — exactly four dot-separated components, each a run of decimal
digits denoting a value at most 255. -/
def isDottedQuadIPv4 (s : String) : Bool :=
  let parts := splitDots s.data
  parts.length == 4 && parts.all (fun t =>
    !(t.isEmpty) && t.all Char.isDigit &&
      decide (t.foldl (fun n c => n * 10 + (c.toNat - 48)) 0 ≤ 255))

/-! ## Properties -/

theorem escalate_eq_maxLevel : ∀ a b, escalate_risk a b = maxLevel a b := by
  decide

theorem escalate_right_comm :
    ∀ a x y, escalate_risk (escalate_risk a x) y = escalate_risk (escalate_risk a y) x := by
  decide

theorem escalate_le_left : ∀ a b, a.toNat ≤ (escalate_risk a b).toNat := by
  decide

theorem escalate_critical : ∀ b, escalate_risk .critical b = .critical := by
  decide

theorem toNat_le_foldl_escalate (l : List RiskLevel) :
    ∀ a : RiskLevel, a.toNat ≤ (l.foldl escalate_risk a).toNat := by
  induction l with
  | nil => intro a; exact Nat.le_refl _
  | cons x xs ih =>
      intro a
      exact Nat.le_trans (escalate_le_left a x) (ih (escalate_risk a x))

theorem foldl_escalate_critical (l : List RiskLevel) :
    l.foldl escalate_risk .critical = .critical := by
  induction l with
  | nil => rfl
  | cons x xs ih => simpa [escalate_critical] using ih

theorem foldl_escalate_of_mem_critical (l : List RiskLevel)
    (h : RiskLevel.critical ∈ l) : ∀ a, l.foldl escalate_risk a = .critical := by
  induction l with
  | nil => cases h
  | cons x xs ih =>
      intro a
      rcases List.mem_cons.mp h with h1 | h1
      · subst h1
        have : escalate_risk a RiskLevel.critical = .critical := by
          cases a <;> rfl
        simpa [List.foldl_cons, this] using foldl_escalate_critical xs
      · simpa [List.foldl_cons] using ih h1 (escalate_risk a x)

theorem foldl_escalate_perm {l₁ l₂ : List RiskLevel} (p : l₁.Perm l₂) :
    ∀ a, l₁.foldl escalate_risk a = l₂.foldl escalate_risk a := by
  induction p with
  | nil => intro a; rfl
  | cons x _ ih => intro a; simpa [List.foldl_cons] using ih (escalate_risk a x)
  | swap x y l =>
      intro a
      simp [List.foldl_cons, escalate_right_comm]
  | trans _ _ ih₁ ih₂ => intro a; exact (ih₁ a).trans (ih₂ a)

theorem cost_comm (a b : Char) : cost a b = cost b a := by
  unfold cost
  by_cases h : a = b
  · subst h; rfl
  · rw [if_neg h, if_neg (fun hba : b = a => h hba.symm)]

theorem cost_le_one (a b : Char) : cost a b ≤ 1 := by
  unfold cost; split <;> omega

theorem lev_nil_left (ys : List Char) : lev [] ys = ys.length := by
  cases ys <;> simp [lev]

theorem lev_nil_right (xs : List Char) : lev xs [] = xs.length := by
  cases xs <;> simp [lev]

theorem lev_cons_cons (x y : Char) (xs ys : List Char) :
    lev (x :: xs) (y :: ys) =
      min (lev xs (y :: ys) + 1) (min (lev (x :: xs) ys + 1) (lev xs ys + cost x y)) := by
  simp [lev]

theorem lev_symm_aux : ∀ n xs ys, xs.length + ys.length ≤ n → lev xs ys = lev ys xs := by
  intro n
  induction n with
  | zero =>
      intro xs ys h
      have hx : xs = [] := List.eq_nil_of_length_eq_zero (by omega)
      have hy : ys = [] := List.eq_nil_of_length_eq_zero (by omega)
      subst hx; subst hy; rfl
  | succ n ih =>
      intro xs ys h
      match xs, ys with
      | [], ys => rw [lev_nil_left, lev_nil_right]
      | x :: xs, [] => rw [lev_nil_left, lev_nil_right]
      | x :: xs, y :: ys =>
          rw [lev_cons_cons, lev_cons_cons]
          have h1 := ih xs (y :: ys) (by simp at h ⊢; omega)
          have h2 := ih (x :: xs) ys (by simp at h ⊢; omega)
          have h3 := ih xs ys (by simp at h ⊢; omega)
          rw [h1, h2, h3, cost_comm]
          omega

theorem lev_symm (xs ys : List Char) : lev xs ys = lev ys xs :=
  lev_symm_aux (xs.length + ys.length) xs ys (Nat.le_refl _)

/-- Appending one character to each argument satisfies the same three-way
minimum recursion as prepending: the key step in validating the row-by-row
dynamic program, which extends prefixes at the right end. -/
theorem lev_min_exchange (A B C D E F G H K cab cxy : Nat) :
    min (min (A + 1) (min (B + 1) (C + cab)) + 1)
      (min (min (D + 1) (min (E + 1) (F + cab)) + 1)
        (min (G + 1) (min (H + 1) (K + cab)) + cxy)) =
    min (min (A + 1) (min (D + 1) (G + cxy)) + 1)
      (min (min (B + 1) (min (E + 1) (H + cxy)) + 1)
        (min (C + 1) (min (F + 1) (K + cxy)) + cab)) := by
  apply le_antisymm
  · simp only [← Nat.add_min_add_right, le_min_iff, min_le_iff]
    omega
  · simp only [← Nat.add_min_add_right, le_min_iff, min_le_iff]
    omega

theorem lev_append_append :
    ∀ n xs ys (a b : Char), xs.length + ys.length ≤ n →
      lev (xs ++ [a]) (ys ++ [b]) =
        min (lev xs (ys ++ [b]) + 1)
          (min (lev (xs ++ [a]) ys + 1) (lev xs ys + cost a b)) := by
  intro n
  induction n with
  | zero =>
      intro xs ys a b h
      have hx : xs = [] := List.eq_nil_of_length_eq_zero (by omega)
      have hy : ys = [] := List.eq_nil_of_length_eq_zero (by omega)
      subst hx; subst hy
      simp [lev, lev_nil_left, lev_nil_right]
  | succ n ih =>
      intro xs ys a b h
      match xs, ys with
      | [], [] =>
          simp only [List.nil_append]
          rw [lev_cons_cons a b [] []]
      | [], y :: ys =>
          simp only [List.nil_append, List.cons_append]
          rw [lev_cons_cons a y [] (ys ++ [b])]
          have h2 := ih [] ys a b (by simp at h ⊢; omega)
          simp only [List.nil_append] at h2
          rw [h2, lev_cons_cons a y [] ys]
          simp only [lev_nil_left, List.length_append, List.length_cons, List.length_nil]
          omega
      | x :: xs, [] =>
          simp only [List.nil_append, List.cons_append]
          rw [lev_cons_cons x b (xs ++ [a]) []]
          have h2 := ih xs [] a b (by simp at h ⊢; omega)
          simp only [List.nil_append] at h2
          rw [h2, lev_cons_cons x b xs []]
          simp only [lev_nil_right, List.length_append, List.length_cons, List.length_nil]
          omega
      | x :: xs, y :: ys =>
          simp only [List.cons_append]
          rw [lev_cons_cons x y (xs ++ [a]) (ys ++ [b])]
          have e2 := ih xs (y :: ys) a b (by simp at h ⊢; omega)
          have e3 := ih (x :: xs) ys a b (by simp at h ⊢; omega)
          have e4 := ih xs ys a b (by simp at h ⊢; omega)
          simp only [List.cons_append] at e2 e3 e4
          rw [e2, e3, e4, lev_cons_cons x y xs (ys ++ [b]),
            lev_cons_cons x y (xs ++ [a]) ys, lev_cons_cons x y xs ys]
          exact lev_min_exchange _ _ _ _ _ _ _ _ _ _ _

/-- Levenshtein distance is invariant under reversing both arguments. -/
theorem lev_reverse_aux :
    ∀ n xs ys, xs.length + ys.length ≤ n → lev xs.reverse ys.reverse = lev xs ys := by
  intro n
  induction n with
  | zero =>
      intro xs ys h
      have hx : xs = [] := List.eq_nil_of_length_eq_zero (by omega)
      have hy : ys = [] := List.eq_nil_of_length_eq_zero (by omega)
      subst hx; subst hy; rfl
  | succ n ih =>
      intro xs ys h
      match xs, ys with
      | [], ys => simp [lev_nil_left]
      | x :: xs, [] => simp [lev_nil_right]
      | x :: xs, y :: ys =>
          have e1 : lev (x :: xs).reverse (y :: ys).reverse =
              lev (xs.reverse ++ [x]) (ys.reverse ++ [y]) := by
            simp [List.reverse_cons]
          have e2 := lev_append_append (xs.reverse.length + ys.reverse.length)
            xs.reverse ys.reverse x y (Nat.le_refl _)
          have i1 : lev xs.reverse (ys.reverse ++ [y]) = lev xs (y :: ys) := by
            have : ys.reverse ++ [y] = (y :: ys).reverse := by simp [List.reverse_cons]
            rw [this]
            exact ih xs (y :: ys) (by simp at h ⊢; omega)
          have i2 : lev (xs.reverse ++ [x]) ys.reverse = lev (x :: xs) ys := by
            have : xs.reverse ++ [x] = (x :: xs).reverse := by simp [List.reverse_cons]
            rw [this]
            exact ih (x :: xs) ys (by simp at h ⊢; omega)
          have i3 : lev xs.reverse ys.reverse = lev xs ys :=
            ih xs ys (by simp at h ⊢; omega)
          rw [e1, e2, i1, i2, i3, lev_cons_cons x y xs ys]

theorem lev_reverse (xs ys : List Char) : lev xs.reverse ys.reverse = lev xs ys :=
  lev_reverse_aux (xs.length + ys.length) xs ys (Nat.le_refl _)

theorem rowStep_spec (c1 : Char) (u : List Char) :
    ∀ v pre, rowStep c1 v (rowOf u pre v) (lev (c1 :: u) pre) =
      rowTail (c1 :: u) pre v := by
  intro v
  induction v with
  | nil => intro pre; rfl
  | cons c2 cs ih =>
      intro pre
      have hrow : rowOf u pre (c2 :: cs) =
          lev u pre :: lev u (c2 :: pre) :: rowTail u (c2 :: pre) cs := rfl
      rw [hrow]
      show min (lev u (c2 :: pre) + 1)
          (min (lev (c1 :: u) pre + 1) (lev u pre + cost c1 c2)) ::
        rowStep c1 cs (lev u (c2 :: pre) :: rowTail u (c2 :: pre) cs)
          (min (lev u (c2 :: pre) + 1)
            (min (lev (c1 :: u) pre + 1) (lev u pre + cost c1 c2))) =
        rowTail (c1 :: u) pre (c2 :: cs)
      have hv : min (lev u (c2 :: pre) + 1)
          (min (lev (c1 :: u) pre + 1) (lev u pre + cost c1 c2)) =
          lev (c1 :: u) (c2 :: pre) := (lev_cons_cons c1 c2 u pre).symm
      rw [hv]
      have := ih (c2 :: pre)
      rw [show (lev u (c2 :: pre) :: rowTail u (c2 :: pre) cs) =
        rowOf u (c2 :: pre) cs from rfl, this]
      rfl

theorem levLoop_spec (s2 : List Char) :
    ∀ rest u, levLoop s2 rest (rowOf u [] s2) u.length =
      rowOf (rest.reverse ++ u) [] s2 := by
  intro rest
  induction rest with
  | nil => intro u; simp [levLoop]
  | cons c1 cs ih =>
      intro u
      show levLoop s2 cs ((u.length + 1) :: rowStep c1 s2 (rowOf u [] s2) (u.length + 1))
          (u.length + 1) = rowOf ((c1 :: cs).reverse ++ u) [] s2
      have hlen : u.length + 1 = lev (c1 :: u) [] := by
        rw [lev_nil_right]; simp
      rw [hlen, rowStep_spec c1 u s2 []]
      have : (lev (c1 :: u) [] :: rowTail (c1 :: u) [] s2) = rowOf (c1 :: u) [] s2 := rfl
      rw [this]
      have hl : lev (c1 :: u) [] = (c1 :: u).length := lev_nil_right _
      rw [hl]
      have := ih (c1 :: u)
      simp only [List.length_cons] at this ⊢
      rw [this]
      simp [List.reverse_cons, List.append_assoc]

theorem rowTail_nil_spec : ∀ v pre : List Char,
    rowTail [] pre v = List.range' (pre.length + 1) v.length := by
  intro v
  induction v with
  | nil => intro pre; simp [rowTail]
  | cons c cs ih =>
      intro pre
      show lev [] (c :: pre) :: rowTail [] (c :: pre) cs =
        List.range' (pre.length + 1) (c :: cs).length
      rw [lev_nil_left, ih (c :: pre)]
      simp [List.range'_succ]

theorem range_eq_rowOf (s2 : List Char) :
    List.range (s2.length + 1) = rowOf [] [] s2 := by
  unfold rowOf
  rw [rowTail_nil_spec s2 [], lev_nil_left]
  simp only [List.length_nil]
  rw [List.range_eq_range']
  simp [List.range'_succ]

theorem rowOf_getLastD (u : List Char) :
    ∀ v pre d, (rowOf u pre v).getLastD d = lev u (v.reverse ++ pre) := by
  intro v
  induction v with
  | nil => intro pre d; simp [rowOf, rowTail]
  | cons c cs ih =>
      intro pre d
      have h1 : rowOf u pre (c :: cs) = lev u pre :: rowOf u (c :: pre) cs := rfl
      rw [h1]
      rw [List.getLastD_cons]
      rw [ih (c :: pre) (lev u pre)]
      simp [List.reverse_cons, List.append_assoc]

theorem levDP_eq_lev (s1 s2 : List Char) : levDP s1 s2 = lev s1 s2 := by
  unfold levDP
  by_cases h : s2.length = 0
  · have : s2 = [] := List.eq_nil_of_length_eq_zero h
    subst this
    simp [lev_nil_right]
  · simp only [h, if_false]
    rw [range_eq_rowOf s2]
    have h0 : (0 : Nat) = ([] : List Char).length := rfl
    rw [h0, levLoop_spec s2 s1 []]
    rw [rowOf_getLastD]
    simp only [List.append_nil]
    rw [← lev_reverse s1 s2]

/-- `_levenshtein_distance` computes the classic edit distance. -/
theorem levenshtein_eq_lev (s1 s2 : String) :
    levenshtein_distance s1 s2 = lev s1.data s2.data := by
  unfold levenshtein_distance
  by_cases h : s1.length < s2.length
  · simp only [h, if_true]
    rw [levDP_eq_lev, lev_symm]
  · simp only [h, if_false]
    exact levDP_eq_lev _ _

theorem runChecks_risk (ctx : Ctx) :
    ∀ (cs : List Check) (f : Finding),
      (runChecks cs ctx f).risk_level = (firedLevels cs ctx).foldl escalate_risk f.risk_level := by
  intro cs
  induction cs with
  | nil => intro f; rfl
  | cons c cs ih =>
      intro f
      show (runChecks cs ctx (applyCheck ctx f c)).risk_level = _
      rw [ih (applyCheck ctx f c)]
      unfold applyCheck
      cases h : c ctx with
      | none => simp [firedLevels, List.filterMap_cons, h]
      | some ml => simp [firedLevels, List.filterMap_cons, h]

theorem runChecks_issues (ctx : Ctx) :
    ∀ (cs : List Check) (f : Finding),
      (runChecks cs ctx f).issues = f.issues ++ firedIssues cs ctx := by
  intro cs
  induction cs with
  | nil => intro f; simp [runChecks, firedIssues]
  | cons c cs ih =>
      intro f
      show (runChecks cs ctx (applyCheck ctx f c)).issues = _
      rw [ih (applyCheck ctx f c)]
      unfold applyCheck
      cases h : c ctx with
      | none => simp [firedIssues, List.filterMap_cons, h]
      | some ml => simp [firedIssues, List.filterMap_cons, h]

theorem scan_url_ok (url : String) (p : ParsedUrl) (h : urlparse url = .ok p) :
    (scan_url url).risk_level =
        (firedLevels theChecks (mkCtx url p)).foldl escalate_risk .low
      ∧ (scan_url url).issues =
        (if (firedIssues theChecks (mkCtx url p)).isEmpty then [noRedFlagsMsg]
         else firedIssues theChecks (mkCtx url p)) := by
  have hr := runChecks_risk (mkCtx url p) theChecks (⟨url, .low, [], none⟩ : Finding)
  have hi := runChecks_issues (mkCtx url p) theChecks (⟨url, .low, [], none⟩ : Finding)
  simp only [scan_url, h]
  by_cases hc : (firedIssues theChecks (mkCtx url p)).isEmpty
  · simp [hc, hr, hi, List.isEmpty_iff.mp hc]
  · simp [hc, hr, hi]

theorem foldl_maxLevel_eq_escalate (l : List RiskLevel) :
    ∀ a, l.foldl maxLevel a = l.foldl escalate_risk a := by
  induction l with
  | nil => intro a; rfl
  | cons x xs ih =>
      intro a
      simp only [List.foldl_cons, escalate_eq_maxLevel]
      exact ih _

theorem runChecks_append (cs₁ cs₂ : List Check) (ctx : Ctx) (f : Finding) :
    runChecks (cs₁ ++ cs₂) ctx f = runChecks cs₂ ctx (runChecks cs₁ ctx f) :=
  List.foldl_append _ _ _ _

/-- C1: for every URL and every permutation of the nine heuristic checks,
the risk level of the finding returned by `scan_url` equals the ordinal
maximum (`maxLevel`, starting from `low`) over the levels proposed by the
checks that fired; and along any prefix of the run the accumulator updated
by `escalate_risk` only ever increases. -/
theorem scan_url_risk_is_order_independent_max (url : String) (p : ParsedUrl) (h : urlparse url = .ok p)
    (cs pre suf : List Check) (hperm : cs.Perm theChecks) (hsplit : cs = pre ++ suf) :
    (scan_url url).risk_level =
        (firedLevels theChecks (mkCtx url p)).foldl maxLevel .low
      ∧ (runChecks cs (mkCtx url p) ⟨url, .low, [], none⟩).risk_level =
        (firedLevels theChecks (mkCtx url p)).foldl maxLevel .low
      ∧ ((runChecks pre (mkCtx url p) ⟨url, .low, [], none⟩).risk_level).toNat ≤
        ((runChecks cs (mkCtx url p) ⟨url, .low, [], none⟩).risk_level).toNat := by
  have hmax := foldl_maxLevel_eq_escalate (firedLevels theChecks (mkCtx url p)) .low
  have hscan := (scan_url_ok url p h).1
  have hperm2 : (firedLevels cs (mkCtx url p)).Perm (firedLevels theChecks (mkCtx url p)) :=
    hperm.filterMap _
  refine ⟨hmax ▸ hscan, ?_, ?_⟩
  · rw [runChecks_risk, hmax, foldl_escalate_perm hperm2]
  · rw [hsplit, runChecks_append, runChecks_risk (mkCtx url p) suf]
    exact toNat_le_foldl_escalate _ _

/-- C3: `scan_url` never raises: a parsing failure during URL decomposition
is caught, appended to the finding as an issue, and escalates the risk
level to (at least) `medium`; it is in fact the only issue line then. -/
theorem scan_url_absorbs_parse_failure (url e : String) (h : urlparse url = .error e) :
    parseErrMsg e ∈ (scan_url url).issues ∧
      RiskLevel.medium.toNat ≤ (scan_url url).risk_level.toNat ∧
      (scan_url url).issues = [parseErrMsg e] := by
  simp [scan_url, h, escalate_risk, RiskLevel.toNat]

/-- C4: `scan_url "http://ec0cash.co.zw/login"` returns a `critical`
finding whose issues include the typosquat-impersonation issue naming
`ecocash.co.zw`, the insecure-transport issue, and the
suspicious-path-on-unknown-domain issue. -/
theorem scan_url_ec0cash_login_critical :
    (scan_url "http://ec0cash.co.zw/login").risk_level = .critical
    ∧ typosquatMsg "ecocash.co.zw" ∈ (scan_url "http://ec0cash.co.zw/login").issues
    ∧ insecureMsg ∈ (scan_url "http://ec0cash.co.zw/login").issues
    ∧ susPathMsg "login" ∈ (scan_url "http://ec0cash.co.zw/login").issues := by
  decide

theorem firedLevels_nil_of_issues_nil (ctx : Ctx) :
    ∀ cs : List Check, firedIssues cs ctx = [] → firedLevels cs ctx = [] := by
  intro cs h
  unfold firedIssues at h
  unfold firedLevels
  rw [List.filterMap_eq_nil_iff] at h ⊢
  intro c hc
  have h2 := h c hc
  rw [Option.map_eq_none'] at h2 ⊢
  exact h2

/-- C10: the finding returned by `scan_url` always has a non-empty issues
list: when no check fired the single informational no-red-flags issue is
appended (risk remaining `low`), and on a parsing failure the
caught-exception issue is appended. -/
theorem scan_url_issues_nonempty (url : String) :
    (scan_url url).issues ≠ []
    ∧ (∀ p, urlparse url = .ok p → firedIssues theChecks (mkCtx url p) = [] →
        (scan_url url).issues = [noRedFlagsMsg] ∧ (scan_url url).risk_level = .low)
    ∧ (∀ e, urlparse url = .error e → (scan_url url).issues = [parseErrMsg e]) := by
  cases hu : urlparse url with
  | error e =>
      refine ⟨?_, ?_, ?_⟩
      · simp [scan_url, hu]
      · intro p hp; cases hp
      · intro e2 he; injection he with he2; subst he2
        simp [scan_url, hu]
  | ok p =>
      have hok := scan_url_ok url p hu
      refine ⟨?_, ?_, ?_⟩
      · rw [hok.2]
        by_cases hc : (firedIssues theChecks (mkCtx url p)).isEmpty
        · simp [hc]
        · simp [hc]
          intro habs
          rw [habs] at hc
          simp at hc
      · intro p2 hp2 hfired
        injection hp2 with hp3; subst hp3
        constructor
        · rw [hok.2, hfired]; rfl
        · rw [hok.1, firedLevels_nil_of_issues_nil _ _ hfired]; rfl
      · intro e he; cases he

/-- C8 counterexample: `ftp://example.com/` has a scheme that is not the
encrypted variant, yet `scan_url` appends no insecure-transport issue and
leaves the risk at `low` — the source tests `scheme == "http"`, not
"scheme is not https". -/
theorem insecure_check_ignores_ftp :
    urlparse "ftp://example.com/" = .ok ⟨"ftp", "example.com", "/"⟩
    ∧ ("ftp" : String) ≠ "https"
    ∧ insecureMsg ∉ (scan_url "ftp://example.com/").issues
    ∧ (scan_url "ftp://example.com/").risk_level = .low :=
  ⟨rfl, by decide, by decide, by decide⟩

/-- C8 (amended): for every URL whose scheme is exactly `http`, `scan_url`
appends the insecure-transport issue and escalates the risk level to at
least `medium`. -/
theorem insecure_check_fires_on_http_scheme (url : String) (p : ParsedUrl)
    (h : urlparse url = .ok p) (hs : p.scheme = "http") :
    insecureMsg ∈ (scan_url url).issues ∧
      RiskLevel.medium.toNat ≤ (scan_url url).risk_level.toNat := by
  have hok := scan_url_ok url p h
  have hhttp : checkHttps (mkCtx url p) = some (insecureMsg, .medium) := by
    simp [checkHttps, mkCtx, hs]
  have hfired : firedIssues theChecks (mkCtx url p) =
      insecureMsg :: firedIssues [checkTld, checkTyposquat, checkScam, checkLength,
        checkSusPath, checkIp, checkSubdomains, checkShortener] (mkCtx url p) := by
    unfold firedIssues theChecks
    rw [List.filterMap_cons, hhttp]
    rfl
  have hlev : firedLevels theChecks (mkCtx url p) =
      RiskLevel.medium :: firedLevels [checkTld, checkTyposquat, checkScam, checkLength,
        checkSusPath, checkIp, checkSubdomains, checkShortener] (mkCtx url p) := by
    unfold firedLevels theChecks
    rw [List.filterMap_cons, hhttp]
    rfl
  constructor
  · rw [hok.2, hfired]
    simp
  · rw [hok.1, hlev]
    simpa using toNat_le_foldl_escalate _ RiskLevel.medium

theorem mem_firedIssues_iff (msg : String) (ctx : Ctx) (cs : List Check) :
    msg ∈ firedIssues cs ctx ↔ ∃ c ∈ cs, ∃ lvl, c ctx = some (msg, lvl) := by
  unfold firedIssues
  rw [List.mem_filterMap]
  constructor
  · rintro ⟨c, hc, hmap⟩
    cases hcc : c ctx with
    | none => rw [hcc] at hmap; cases hmap
    | some ml =>
        rw [hcc] at hmap
        simp only [Option.map_some'] at hmap
        injection hmap with h1
        refine ⟨c, hc, ml.2, ?_⟩
        rw [hcc, ← h1]
  · rintro ⟨c, hc, lvl, hcc⟩
    exact ⟨c, hc, by rw [hcc]; rfl⟩

theorem critical_mem_firedLevels (ctx : Ctx) (c : Check) (hc : c ∈ theChecks)
    (msg : String) (hcc : c ctx = some (msg, .critical)) :
    RiskLevel.critical ∈ firedLevels theChecks ctx := by
  unfold firedLevels
  rw [List.mem_filterMap]
  exact ⟨c, hc, by rw [hcc]; rfl⟩

theorem ip_mem_fired_iff (ctx : Ctx) :
    ipMsg ∈ firedIssues theChecks ctx ↔ ipPrefixMatch ctx.domain.data = true := by
  rw [mem_firedIssues_iff]
  constructor
  · rintro ⟨c, hc, lvl, hcc⟩
    simp only [theChecks, List.mem_cons, List.not_mem_nil, or_false] at hc
    rcases hc with h|h|h|h|h|h|h|h|h
    · subst h
      unfold checkHttps at hcc
      split at hcc
      · injection hcc with h1
        rw [Prod.mk.injEq] at h1
        exact absurd h1.1 (by decide)
      · cases hcc
    · subst h
      unfold checkTld at hcc
      cases hf : SUSPICIOUS_TLDS.find? (fun tld => strEndsWith ctx.domain tld) with
      | none => rw [hf] at hcc; cases hcc
      | some tld =>
          rw [hf] at hcc
          simp only [Option.map_some'] at hcc
          injection hcc with h1
          have hmem := List.mem_of_find?_eq_some hf
          have hne : ∀ t ∈ SUSPICIOUS_TLDS, ¬ tldMsg t = ipMsg := by decide
          exact absurd (show tldMsg tld = ipMsg from congrArg Prod.fst h1) (hne tld hmem)
    · subst h
      unfold checkTyposquat check_typosquatting at hcc
      cases hf : typosquat_targets.find? (typosquatHit ctx.domain) with
      | none => rw [hf] at hcc; cases hcc
      | some pr =>
          rw [hf] at hcc
          simp only [Option.map_some'] at hcc
          injection hcc with h1
          have hmem := List.mem_of_find?_eq_some hf
          have hne : ∀ pr ∈ typosquat_targets, ¬ typosquatMsg pr.2 = ipMsg := by decide
          exact absurd (show typosquatMsg pr.2 = ipMsg from congrArg Prod.fst h1) (hne pr hmem)
    · subst h
      unfold checkScam at hcc
      split at hcc
      · injection hcc with h1
        rw [Prod.mk.injEq] at h1
        exact absurd h1.1 (by decide)
      · cases hcc
    · subst h
      unfold checkLength at hcc
      split at hcc
      · injection hcc with h1
        rw [Prod.mk.injEq] at h1
        exact absurd h1.1 (by decide)
      · cases hcc
    · subst h
      unfold checkSusPath at hcc
      cases hf : sus_paths.find? (fun sus =>
          strContains ctx.path sus && !(LEGITIMATE_ZW_DOMAINS.contains ctx.domain)) with
      | none => rw [hf] at hcc; cases hcc
      | some sus =>
          rw [hf] at hcc
          simp only [Option.map_some'] at hcc
          injection hcc with h1
          have hmem := List.mem_of_find?_eq_some hf
          have hne : ∀ t ∈ sus_paths, ¬ susPathMsg t = ipMsg := by decide
          exact absurd (show susPathMsg sus = ipMsg from congrArg Prod.fst h1) (hne sus hmem)
    · subst h
      unfold checkIp at hcc
      split at hcc
      · next hip => exact hip
      · cases hcc
    · subst h
      unfold checkSubdomains at hcc
      split at hcc
      · injection hcc with h1
        rw [Prod.mk.injEq] at h1
        exact absurd h1.1 (by decide)
      · cases hcc
    · subst h
      unfold checkShortener at hcc
      split at hcc
      · injection hcc with h1
        rw [Prod.mk.injEq] at h1
        exact absurd h1.1 (by decide)
      · cases hcc
  · intro hip
    refine ⟨checkIp, by simp [theChecks], RiskLevel.critical, ?_⟩
    simp [checkIp, hip]

/-- C7 (amended): `scan_url` appends the raw-IP issue exactly when the
domain BEGINS WITH four 1-to-3-digit groups separated by dots (the regex
`\d{1,3}(\.\d{1,3}){3}` matching a prefix), and whenever that check fires
the risk level is `critical`. -/
theorem ip_check_iff_prefix_groups (url : String) (p : ParsedUrl) (h : urlparse url = .ok p) :
    (ipMsg ∈ (scan_url url).issues ↔ ipPrefixMatch (lowerStr p.netloc).data = true)
    ∧ (ipPrefixMatch (lowerStr p.netloc).data = true →
        (scan_url url).risk_level = .critical) := by
  have hok := scan_url_ok url p h
  have hdom : (mkCtx url p).domain = lowerStr p.netloc := rfl
  constructor
  · rw [hok.2]
    by_cases hc : (firedIssues theChecks (mkCtx url p)).isEmpty
    · simp only [hc, if_true]
      constructor
      · intro hmem
        simp only [List.mem_singleton] at hmem
        exact absurd hmem (by decide)
      · intro hip
        have := (ip_mem_fired_iff (mkCtx url p)).mpr (hdom ▸ hip)
        rw [List.isEmpty_iff.mp hc] at this
        cases this
    · simp only [hc, if_false]
      rw [← hdom]
      exact ip_mem_fired_iff (mkCtx url p)
  · intro hip
    rw [hok.1]
    have hfire : checkIp (mkCtx url p) = some (ipMsg, .critical) := by
      simp [checkIp, hdom ▸ hip]
    have hcrit := critical_mem_firedLevels (mkCtx url p) checkIp (by simp [theChecks]) ipMsg hfire
    exact foldl_escalate_of_mem_critical _ hcrit _

/-- C7 counterexample: the domain `1.2.3.4.5` is not a dotted-quad IPv4
literal, yet the raw-IP check fires and `scan_url` reports `critical` —
the source regex is an unanchored prefix match. -/
theorem ip_check_fires_on_non_dotted_quad :
    isDottedQuadIPv4 "1.2.3.4.5" = false
    ∧ ipMsg ∈ (scan_url "http://1.2.3.4.5/").issues
    ∧ (scan_url "http://1.2.3.4.5/").risk_level = .critical := by
  decide

theorem containsSeq_iff (needle : List Char) :
    ∀ hay, containsSeq needle hay = true ↔ needle <:+: hay := by
  intro hay
  induction hay with
  | nil =>
      simp [containsSeq, List.isEmpty_iff]
  | cons c cs ih =>
      simp only [containsSeq, Bool.or_eq_true, ih, List.infix_cons_iff]
      constructor
      · rintro (h1 | h2)
        · exact Or.inl (List.isPrefixOf_iff_prefix.mp h1)
        · exact Or.inr h2
      · rintro (h1 | h2)
        · exact Or.inl (List.isPrefixOf_iff_prefix.mpr h1)
        · exact Or.inr h2

theorem typosquatHit_iff (domain : String) (pr : String × String) :
    typosquatHit domain pr = true ↔
      (domain ∉ LEGITIMATE_ZW_DOMAINS ∧ domainBase domain ≠ pr.1
        ∧ (pr.1.data <:+: (domainBase domain).data
            ∨ lev (domainBase domain).data pr.1.data ≤ 2)) := by
  unfold typosquatHit strContains
  simp only [Bool.and_eq_true, Bool.or_eq_true, Bool.not_eq_true', bne_iff_ne, ne_eq,
    decide_eq_true_eq, containsSeq_iff, levenshtein_eq_lev]
  constructor
  · rintro ⟨hleg, (⟨ha, hne⟩ | ⟨hb, hne⟩)⟩
    · exact ⟨by simpa using hleg, hne, Or.inl ha⟩
    · exact ⟨by simpa using hleg, hne, Or.inr hb⟩
  · rintro ⟨hleg, hne, (ha | hb)⟩
    · exact ⟨by simpa using hleg, Or.inl ⟨ha, hne⟩⟩
    · exact ⟨by simpa using hleg, Or.inr ⟨hb, hne⟩⟩

/-- C5: the typosquat detector flags a candidate domain (returning some
target's canonical full domain) if and only if some `(targetBase,
targetFullDomain)` pair satisfies: the candidate is not in the
legitimate-domain registry, its primary label differs from `targetBase`,
and either `targetBase` is a substring of the primary label or the classic
edit distance between them is at most 2; moreover any returned value is the
canonical full domain of a registry pair. -/
theorem check_typosquatting_characterization (domain : String) :
    ((∃ t, check_typosquatting domain = some t) ↔
      (∃ pr ∈ typosquat_targets,
        domain ∉ LEGITIMATE_ZW_DOMAINS
        ∧ domainBase domain ≠ pr.1
        ∧ (pr.1.data <:+: (domainBase domain).data
            ∨ lev (domainBase domain).data pr.1.data ≤ 2)))
    ∧ (∀ t, check_typosquatting domain = some t →
        ∃ pr ∈ typosquat_targets, pr.2 = t) := by
  constructor
  · constructor
    · rintro ⟨t, ht⟩
      unfold check_typosquatting at ht
      cases hf : typosquat_targets.find? (typosquatHit domain) with
      | none => rw [hf] at ht; cases ht
      | some pr =>
          exact ⟨pr, List.mem_of_find?_eq_some hf,
            (typosquatHit_iff domain pr).mp (List.find?_some hf)⟩
    · rintro ⟨pr, hmem, hcond⟩
      have hsome : (typosquat_targets.find? (typosquatHit domain)).isSome := by
        rw [List.find?_isSome]
        exact ⟨pr, hmem, (typosquatHit_iff domain pr).mpr hcond⟩
      obtain ⟨pr2, hpr2⟩ := Option.isSome_iff_exists.mp hsome
      exact ⟨pr2.2, by unfold check_typosquatting; rw [hpr2]; rfl⟩
  · intro t ht
    unfold check_typosquatting at ht
    cases hf : typosquat_targets.find? (typosquatHit domain) with
    | none => rw [hf] at ht; cases ht
    | some pr =>
        rw [hf] at ht
        simp only [Option.map_some'] at ht
        injection ht with h1
        exact ⟨pr, List.mem_of_find?_eq_some hf, h1⟩

/-- C9: `_levenshtein_distance` computes the classic single-character
insertion/deletion/substitution edit distance, and is symmetric. -/
theorem levenshtein_distance_classic_and_symmetric (a b : String) :
    levenshtein_distance a b = lev a.data b.data
    ∧ levenshtein_distance a b = levenshtein_distance b a :=
  ⟨levenshtein_eq_lev a b, by rw [levenshtein_eq_lev, levenshtein_eq_lev, lev_symm]⟩

theorem active_ok_of_available (cfg : Config)
    (hne : get_available_providers cfg ≠ []) :
    ∃ p, get_active_provider cfg = .ok p := by
  unfold get_active_provider
  by_cases hauto : cfg.AI_PROVIDER = "auto"
  · by_cases h1 : "anthropic" ∈ get_available_providers cfg
    · simp [hauto, h1]
    · by_cases h2 : "openai" ∈ get_available_providers cfg
      · simp [hauto, h1, h2]
      · exfalso
        apply hne
        unfold get_available_providers at *
        by_cases k1 : cfg.ANTHROPIC_API_KEY ≠ "" <;>
          by_cases k2 : cfg.OPENAI_API_KEY ≠ "" <;>
            simp [k1, k2] at h1 h2 ⊢
  · by_cases h1 : cfg.AI_PROVIDER ∈ get_available_providers cfg
    · simp [hauto, h1]
    · cases hav : get_available_providers cfg with
      | nil => exact absurd hav hne
      | cons q l =>
          rw [hav] at h1
          simp at h1
          simp [hauto, h1.1, h1.2]

theorem fallback_ok_of_active (cfg : Config) (p : String)
    (hp : get_active_provider cfg = .ok p) :
    ∃ fb, get_fallback_provider cfg = .ok fb := by
  unfold get_fallback_provider
  by_cases hauto : cfg.AI_PROVIDER ≠ "auto"
  · simp [hauto]
  · simp only [hauto, if_false, hp]
    exact ⟨_, rfl⟩

/-- C2 amended draft, on the prompt-abstracted core. -/
theorem analyze_core_contract (callClaude callOpenai : String → String → Option String)
    (cfg : Config) (system user_message : String)
    (hne : get_available_providers cfg ≠ []) :
    (∃ s, analyze_core callClaude callOpenai cfg system user_message = .ok s)
    ∧ ((∀ sys usr, callClaude sys usr = none) → (∀ sys usr, callOpenai sys usr = none) →
        analyze_core callClaude callOpenai cfg system user_message = .ok error_response)
    ∧ error_response ≠ ""
    ∧ (∀ s, (∀ sys usr r, callClaude sys usr = some r → r ≠ "") →
        (∀ sys usr r, callOpenai sys usr = some r → r ≠ "") →
        analyze_core callClaude callOpenai cfg system user_message = .ok s → s ≠ "") := by
  obtain ⟨p, hp⟩ := active_ok_of_available cfg hne
  obtain ⟨fb, hf⟩ := fallback_ok_of_active cfg p hp
  unfold analyze_core
  simp only [hp, hf]
  refine ⟨?_, ?_, by decide, ?_⟩
  · cases h1 : call_provider callClaude callOpenai p system user_message with
    | some r => exact ⟨r, by simp [h1]⟩
    | none =>
        cases fb with
        | none => exact ⟨error_response, by simp [h1]⟩
        | some fbp =>
            cases h2 : call_provider callClaude callOpenai fbp system user_message with
            | some r => exact ⟨r, by simp [h1, h2]⟩
            | none => exact ⟨error_response, by simp [h1, h2]⟩
  · intro hcc hco
    have hnone : ∀ q, call_provider callClaude callOpenai q system user_message = none := by
      intro q
      unfold call_provider
      by_cases hq : q = "anthropic" <;> simp [hq, hcc, hco]
    simp only [hnone]
    cases fb with
    | none => rfl
    | some fbp => rfl
  · intro s hcc hco hs
    have hval : ∀ q r, call_provider callClaude callOpenai q system user_message = some r →
        r ≠ "" := by
      intro q r hq
      unfold call_provider at hq
      by_cases hqa : q = "anthropic"
      · rw [if_pos hqa] at hq; exact hcc _ _ _ hq
      · rw [if_neg hqa] at hq; exact hco _ _ _ hq
    cases h1 : call_provider callClaude callOpenai p system user_message with
    | some r =>
        simp only [h1] at hs
        injection hs with hs1
        subst hs1
        exact hval _ _ h1
    | none =>
        simp only [h1] at hs
        cases fb with
        | none =>
            injection hs with hs1
            subst hs1
            decide
        | some fbp =>
            cases h2 : call_provider callClaude callOpenai fbp system user_message with
            | some r =>
                simp only [h2] at hs
                injection hs with hs1
                subst hs1
                exact hval _ _ h2
            | none =>
                simp only [h2] at hs
                injection hs with hs1
                subst hs1
                decide

/-- C2 counterexample: with no credentials configured, `analyze_text`
propagates the `RuntimeError` of provider resolution instead of returning
a string — it does not "never raise". -/
theorem analyze_text_error_no_keys :
    analyze_text (fun _ _ => none) (fun _ _ => none) ⟨"auto", "", ""⟩ "hello" "text"
      = .error noKeysMsg
    ∧ (∀ s, analyze_text (fun _ _ => none) (fun _ _ => none) ⟨"auto", "", ""⟩ "hello" "text"
        ≠ .ok s) := by
  constructor
  · rfl
  · intro s h
    rw [show analyze_text (fun _ _ => none) (fun _ _ => none) ⟨"auto", "", ""⟩ "hello" "text"
        = .error noKeysMsg from rfl] at h
    cases h

/-- C6 counterexample: in auto mode with zero credentials (so no "other
available provider" exists), `get_fallback_provider` does not return none:
it propagates the no-credentials `RuntimeError` raised by
`get_active_provider`, which it calls. -/
theorem get_fallback_provider_error_no_keys :
    get_available_providers ⟨"auto", "", ""⟩ = []
    ∧ get_fallback_provider ⟨"auto", "", ""⟩ = .error noKeysMsg
    ∧ get_fallback_provider ⟨"auto", "", ""⟩ ≠ .ok none := by
  refine ⟨rfl, rfl, ?_⟩
  intro h
  rw [show get_fallback_provider ⟨"auto", "", ""⟩ = .error noKeysMsg from rfl] at h
  cases h

/-- C6 (amended): `get_fallback_provider` returns none whenever the
selection mode is not auto, regardless of credentials; in auto mode with
at least one credential it returns the other available provider if one
exists and none otherwise (with no credentials it instead propagates the
no-credentials error, per the counterexample). -/
theorem get_fallback_provider_spec_amended (cfg : Config) :
    (cfg.AI_PROVIDER ≠ "auto" → get_fallback_provider cfg = .ok none)
    ∧ (cfg.AI_PROVIDER = "auto" → get_available_providers cfg ≠ [] →
        ∃ p, get_active_provider cfg = .ok p
          ∧ ((∃ q ∈ get_available_providers cfg, q ≠ p) →
              ∃ q, get_fallback_provider cfg = .ok (some q)
                ∧ q ∈ get_available_providers cfg ∧ q ≠ p)
          ∧ ((∀ q ∈ get_available_providers cfg, q = p) →
              get_fallback_provider cfg = .ok none)) := by
  constructor
  · intro hna
    unfold get_fallback_provider
    simp [hna]
  · intro hauto hne
    obtain ⟨p, hp⟩ := active_ok_of_available cfg hne
    have hfb : get_fallback_provider cfg =
        .ok ((get_available_providers cfg).find? (fun q => q != p)) := by
      unfold get_fallback_provider
      simp [hauto, hp]
    refine ⟨p, hp, ?_, ?_⟩
    · rintro ⟨q, hqmem, hqne⟩
      have hsome : ((get_available_providers cfg).find? (fun q => q != p)).isSome := by
        rw [List.find?_isSome]
        exact ⟨q, hqmem, by simpa using hqne⟩
      obtain ⟨q2, hq2⟩ := Option.isSome_iff_exists.mp hsome
      refine ⟨q2, by rw [hfb, hq2], List.mem_of_find?_eq_some hq2, ?_⟩
      have := List.find?_some hq2
      simpa using this
    · intro hall
      have hnone : (get_available_providers cfg).find? (fun q => q != p) = none := by
        rw [List.find?_eq_none]
        intro x hx
        simpa using hall x hx
      rw [hfb, hnone]


/-- C2 (amended): whenever at least one provider credential is configured,
`analyze_text` never raises (it returns `Except.ok`); when every provider
call fails it returns the fixed canonical bilingual apology, which is
non-empty and not derived from the failure detail; and the result is
non-empty whenever every successful provider response is non-empty. -/
theorem analyze_text_never_fails (callClaude callOpenai : String → String → Option String)
    (cfg : Config) (content content_type : String)
    (hne : get_available_providers cfg ≠ []) :
    (∃ s, analyze_text callClaude callOpenai cfg content content_type = .ok s)
    ∧ ((∀ sys usr, callClaude sys usr = none) → (∀ sys usr, callOpenai sys usr = none) →
        analyze_text callClaude callOpenai cfg content content_type = .ok error_response)
    ∧ error_response ≠ ""
    ∧ (∀ s, (∀ sys usr r, callClaude sys usr = some r → r ≠ "") →
        (∀ sys usr r, callOpenai sys usr = some r → r ≠ "") →
        analyze_text callClaude callOpenai cfg content content_type = .ok s → s ≠ "") :=
  analyze_core_contract callClaude callOpenai cfg _ _ hne

/-- Witness for C1 at `http://ec0cash.co.zw/login` with the identity
permutation. -/
theorem scan_url_risk_is_order_independent_max_witness :
    (scan_url "http://ec0cash.co.zw/login").risk_level =
      (firedLevels theChecks
        (mkCtx "http://ec0cash.co.zw/login" ⟨"http", "ec0cash.co.zw", "/login"⟩)).foldl
        maxLevel .low :=
  (scan_url_risk_is_order_independent_max "http://ec0cash.co.zw/login"
    ⟨"http", "ec0cash.co.zw", "/login"⟩ rfl theChecks [] theChecks
    (List.Perm.refl _) rfl).1

/-- Witness for C2: one credential configured, both backends failing. -/
theorem analyze_text_never_fails_witness :
    analyze_text (fun _ _ => none) (fun _ _ => none) ⟨"auto", "k", ""⟩ "hi" "text"
      = .ok error_response
    ∧ error_response ≠ "" := by
  have h := analyze_text_never_fails (fun _ _ => none) (fun _ _ => none)
    ⟨"auto", "k", ""⟩ "hi" "text" (by decide)
  exact ⟨h.2.1 (fun _ _ => rfl) (fun _ _ => rfl), h.2.2.1⟩

/-- Witness for C3 at a malformed URL (unbalanced IPv6 bracket). -/
theorem scan_url_absorbs_parse_failure_witness :
    parseErrMsg "Invalid IPv6 URL" ∈ (scan_url "http://[oops/x").issues
    ∧ RiskLevel.medium.toNat ≤ (scan_url "http://[oops/x").risk_level.toNat
    ∧ (scan_url "http://[oops/x").issues = [parseErrMsg "Invalid IPv6 URL"] :=
  scan_url_absorbs_parse_failure "http://[oops/x" "Invalid IPv6 URL" rfl

/-- Witness for C5 at the typosquat domain `ec0cash.co.zw`. -/
theorem check_typosquatting_characterization_witness :
    (∃ t, check_typosquatting "ec0cash.co.zw" = some t)
    ∧ ∃ pr ∈ typosquat_targets, pr.2 = "ecocash.co.zw" := by
  have h := check_typosquatting_characterization "ec0cash.co.zw"
  refine ⟨h.1.mpr ⟨("ecocash", "ecocash.co.zw"), by decide, by decide, by decide, ?_⟩,
    h.2 "ecocash.co.zw" (by decide)⟩
  refine Or.inr ?_
  rw [show ("ec0cash.co.zw" : String) = "ec0cash.co.zw" from rfl]
  rw [show (domainBase "ec0cash.co.zw") = "ec0cash" from rfl]
  rw [← levenshtein_eq_lev "ec0cash" "ecocash"]
  decide

/-- Witness for C6 in auto mode with both credentials present. -/
theorem get_fallback_provider_spec_amended_witness :
    ∃ q, get_fallback_provider ⟨"auto", "k1", "k2"⟩ = .ok (some q)
      ∧ q ∈ get_available_providers ⟨"auto", "k1", "k2"⟩ := by
  have h := (get_fallback_provider_spec_amended ⟨"auto", "k1", "k2"⟩).2 rfl (by decide)
  obtain ⟨p, hp, h1, _⟩ := h
  have hp2 : p = "anthropic" := by
    rw [show get_active_provider ⟨"auto", "k1", "k2"⟩ = .ok "anthropic" from rfl] at hp
    injection hp with hp3
    exact hp3.symm
  subst hp2
  obtain ⟨q, hq1, hq2, _⟩ := h1 ⟨"openai", by decide, by decide⟩
  exact ⟨q, hq1, hq2⟩

/-- Witness for C7 at `http://192.168.0.1/verify`. -/
theorem ip_check_iff_prefix_groups_witness :
    (ipMsg ∈ (scan_url "http://192.168.0.1/verify").issues ↔
      ipPrefixMatch (lowerStr "192.168.0.1").data = true)
    ∧ (scan_url "http://192.168.0.1/verify").risk_level = .critical := by
  have h := ip_check_iff_prefix_groups "http://192.168.0.1/verify"
    ⟨"http", "192.168.0.1", "/verify"⟩ rfl
  exact ⟨h.1, h.2 (by decide)⟩

/-- Witness for C8 at a plain-http URL. -/
theorem insecure_check_fires_on_http_scheme_witness :
    insecureMsg ∈ (scan_url "http://x.com/a").issues
    ∧ RiskLevel.medium.toNat ≤ (scan_url "http://x.com/a").risk_level.toNat :=
  insecure_check_fires_on_http_scheme "http://x.com/a" ⟨"http", "x.com", "/a"⟩ rfl rfl

/-- Witness for C10 at a URL with no red flags. -/
theorem scan_url_issues_nonempty_witness :
    (scan_url "https://example.com/").issues = [noRedFlagsMsg]
    ∧ (scan_url "https://example.com/").risk_level = .low :=
  (scan_url_issues_nonempty "https://example.com/").2.1
    ⟨"https", "example.com", "/"⟩ rfl (by decide)

end Chokwadi
